import Mathlib

/-!
Verification of the Smart Data Visualizer (src/main.py), a single-file
Streamlit application.  The development shallowly embeds the data model
(a pandas DataFrame restricted to what the program observes: named,
dtyped columns of possibly-null cells), the upload dispatch in
`load_data`, the summary panels, the per-chart column offerings and the
heatmap render path, and the `top_corr` quick-insight pipeline
(`corr().abs().unstack().sort_values(ascending=False).drop_duplicates().head(5)`).

Library-call semantics embedded here and checked against the pandas /
seaborn behaviour the program relies on:
  * `Series.drop_duplicates` deduplicates on the *values* of the series
    (keep='first'); the index labels (column pairs) are ignored.
  * `Series.sort_values(ascending=False)` sorts descending; the order of
    entries with equal values is unspecified (numpy quicksort).  We model
    a deterministic stable sort; every property proved below is
    independent of the tie order.
  * `DataFrame.describe()` raises `ValueError` on a frame without
    columns; on a 0-row frame with columns it returns empty statistics.
  * `seaborn.heatmap` raises `ValueError` (a zero-size reduction) when
    handed an empty matrix, which happens when `df.corr()` is taken on a
    table with no numeric columns.
Pearson correlation itself involves square roots, so the correlation
matrix produced by `DataFrame.corr()` is passed to the insight pipeline
as an abstract rational-valued function; the facts the proofs use about
it (symmetry, unit diagonal) are exactly the properties of Pearson
correlation on columns of nonzero variance, and concrete instantiations
are certified exactly via the covariance equations (`covSum` below).
-/

/-- A cell value of a loaded table: numeric or textual. -/
inductive Val where
  | num (q : ℚ)
  | str (s : String)
deriving DecidableEq

/-- A cell is a value or a null (pandas `NaN` / `None`). -/
abbrev Cell := Option Val

/-- The dtype pandas infers for a column: numeric (`int64`/`float64`)
or non-numeric (`object`, etc.). -/
inductive Dtype where
  | num
  | obj
deriving DecidableEq

/-- One named, dtyped column of the loaded table. -/
structure Column where
  name : String
  dtype : Dtype
  cells : List Cell
deriving DecidableEq

/-- The central entity: the table loaded from the uploaded file
(`df` in src/main.py).  An ordered collection of named columns. -/
structure Table where
  cols : List Column
deriving DecidableEq

/-- `df.shape[0]`: the row count (all columns share it in a loaded
frame; an empty frame has 0 rows). -/
def rowCount (df : Table) : Nat :=
  match df.cols with
  | [] => 0
  | c :: _ => c.cells.length

/-- `df.shape[1]`: the column count. -/
def columnCount (df : Table) : Nat := df.cols.length

/-- `df.columns.tolist()` (src/main.py line 130, `all_cols`). -/
def all_cols (df : Table) : List String := df.cols.map (fun c => c.name)

/-- `df.select_dtypes(include=np.number).columns.tolist()`
(src/main.py line 129, `numeric_cols`): the names of the numeric-dtyped
columns, in table order. -/
def numeric_cols (df : Table) : List String :=
  (df.cols.filter (fun c => c.dtype = Dtype.num)).map (fun c => c.name)

/-- `df.isnull().sum()` (src/main.py lines 116 and 121): for each
column, the number of null cells. -/
def perColumnMissing (df : Table) : List (String × Nat) :=
  df.cols.map (fun c => (c.name, c.cells.countP (fun cell => cell.isNone)))

/-- `df.isnull().sum().sum()` (src/main.py line 116): the reported
total missing-value count, computed by summing the per-column sums. -/
def missingCount (df : Table) : Nat :=
  ((perColumnMissing df).map Prod.snd).sum

/-- The total number of null cells across the whole table, counted
directly on the flattened cell pool (the meaning the spec attaches to
`missingCount()`); defined independently of `missingCount`. -/
def totalTableNulls (df : Table) : Nat :=
  (df.cols.flatMap (fun c => c.cells)).countP (fun cell => cell.isNone)

/-- `df.dtypes` (src/main.py line 119). -/
def dtypes (df : Table) : List (String × Dtype) :=
  df.cols.map (fun c => (c.name, c.dtype))

/-- The numeric values of a column (non-null numeric cells). -/
def numericCells (c : Column) : List ℚ :=
  c.cells.filterMap (fun cell =>
    match cell with
    | some (Val.num q) => some q
    | _ => none)

/-- Per-column descriptive statistics as surfaced by `df.describe()`:
count of non-null numeric values, mean, min and max (the square-root
valued `std` and the interpolated quartiles are not needed by any
claim and are omitted from the record). -/
structure NumSummary where
  count : Nat
  mean : Option ℚ
  lo : Option ℚ
  hi : Option ℚ
deriving DecidableEq

/-- Statistics of one column. -/
def summarizeColumn (c : Column) : NumSummary :=
  let vs := numericCells c
  { count := vs.length
    mean := if vs.length = 0 then none else some (vs.sum / vs.length)
    lo := vs.foldl (fun acc q => match acc with
            | none => some q
            | some a => some (min a q)) none
    hi := vs.foldl (fun acc q => match acc with
            | none => some q
            | some a => some (max a q)) none }

/-- `df.describe()` (src/main.py line 124).  pandas raises
`ValueError: Cannot describe a DataFrame without columns` on a frame
with zero columns; otherwise it describes the numeric columns when any
exist, and falls back to all columns when none do. -/
def describeTable (df : Table) : Except String (List (String × NumSummary)) :=
  if df.cols.isEmpty then
    Except.error "Cannot describe a DataFrame without columns"
  else
    let numeric := df.cols.filter (fun c => c.dtype = Dtype.num)
    let selected := if numeric.isEmpty then df.cols else numeric
    Except.ok (selected.map (fun c => (c.name, summarizeColumn c)))

/-- `df.head()` (src/main.py line 109): the preview frame holding the
first five rows of every column. -/
def dfHead (df : Table) : Table :=
  ⟨df.cols.map (fun c => ⟨c.name, c.dtype, c.cells.take 5⟩)⟩

/-- The two parse strategies of the data loader. -/
inductive ParseKind where
  | csv
  | excel
deriving DecidableEq

/-- `load_data` dispatch (src/main.py lines 97-101): the file is parsed
as comma-delimited text exactly when `uploaded_file.name.endswith(".csv")`;
every other name goes to `pd.read_excel`.  Python's `str.endswith` is an
exact, case-sensitive suffix test, embedded here on the character list
of the filename. -/
def load_data (filename : List Char) : ParseKind :=
  if (".csv".toList).isSuffixOf filename then ParseKind.csv else ParseKind.excel

/-- C4: the data loader dispatches purely on a case-sensitive suffix
match of the filename: comma-delimited parsing iff the name ends in the
exact suffix ".csv"; a name ending in ".CSV" or any non-.csv suffix
goes to the spreadsheet parser. -/
theorem load_data_dispatch_by_suffix :
    (∀ filename : List Char,
      load_data filename = ParseKind.csv ↔ (".csv".toList) <:+ filename)
    ∧ load_data ("report.CSV".toList) = ParseKind.excel
    ∧ load_data ("data.csv".toList) = ParseKind.csv
    ∧ load_data ("table.xlsx".toList) = ParseKind.excel := by
  refine ⟨fun filename => ?_, by decide, by decide, by decide⟩
  unfold load_data
  by_cases h : (".csv".toList).isSuffixOf filename
  · simp [h, List.isSuffixOf_iff_suffix.mp h]
  · have h' : ¬ (".csv".toList) <:+ filename := fun hs =>
      h (List.isSuffixOf_iff_suffix.mpr hs)
    simp [h, h']

/-- C4 witness: the dispatch equivalence applied at a concrete
filename. -/
theorem load_data_dispatch_by_suffix_witness :
    load_data ("sales.csv".toList) = ParseKind.csv :=
  (load_data_dispatch_by_suffix.1 ("sales.csv".toList)).mpr (by decide)

/-- C5: the total missing-value count reported by the overview equals
the sum over all columns of the per-column missing counts, and both
agree with a direct count of the null cells of the whole table. -/
theorem missingCount_consistency (df : Table) :
    missingCount df = ((perColumnMissing df).map Prod.snd).sum
    ∧ missingCount df = totalTableNulls df := by
  refine ⟨rfl, ?_⟩
  unfold missingCount totalTableNulls perColumnMissing
  induction df.cols with
  | nil => rfl
  | cons c rest ih =>
      simp only [List.map_cons, List.map_map, List.sum_cons,
        List.flatMap_cons, List.countP_append] at *
      omega

/-- The empty table: zero columns, zero rows (what `pd.read_excel`
returns for a spreadsheet whose first sheet is empty). -/
def emptyTable : Table := ⟨[]⟩

/-- C7: at the empty table every summary operation except `describe()`
degrades gracefully to zero counts and empty panels, but `describe()`
itself raises `ValueError: Cannot describe a DataFrame without columns`
instead of returning empty statistics — the code crashes where the
claim requires graceful degradation. -/
theorem describe_raises_on_empty_table :
    rowCount emptyTable = 0
    ∧ columnCount emptyTable = 0
    ∧ missingCount emptyTable = 0
    ∧ perColumnMissing emptyTable = []
    ∧ dtypes emptyTable = []
    ∧ describeTable emptyTable =
        Except.error "Cannot describe a DataFrame without columns" := by
  refine ⟨rfl, rfl, rfl, rfl, rfl, rfl⟩

/-- The six chart kinds of the selector (src/main.py lines 132-135). -/
inductive ChartType where
  | scatter
  | line
  | histogram
  | box
  | heatmap
  | countPlot
deriving DecidableEq

/-- The option lists handed to the column select boxes for each chart
kind, in on-screen order (src/main.py lines 140-164): Scatter offers
`numeric_cols` for X and Y; Line offers `all_cols` for X and
`numeric_cols` for Y; Histogram and Box offer `numeric_cols`; Count
offers `all_cols`; Heatmap renders with no selection. -/
def columnOptions (df : Table) : ChartType → List (List String)
  | ChartType.scatter => [numeric_cols df, numeric_cols df]
  | ChartType.line => [all_cols df, numeric_cols df]
  | ChartType.histogram => [numeric_cols df]
  | ChartType.box => [numeric_cols df]
  | ChartType.countPlot => [all_cols df]
  | ChartType.heatmap => []

/-- Whether the table has a numeric-dtyped column of the given name. -/
def hasNumericColumn (df : Table) (c : String) : Bool :=
  df.cols.any (fun col => col.name == c && col.dtype == Dtype.num)

/-- Every name in `numeric_cols` names a numeric column of the table. -/
theorem hasNumericColumn_of_mem_numeric_cols {df : Table} {c : String}
    (h : c ∈ numeric_cols df) : hasNumericColumn df c = true := by
  unfold numeric_cols at h
  rcases List.mem_map.mp h with ⟨col, hmem, hname⟩
  rcases List.mem_filter.mp hmem with ⟨hcols, hdt⟩
  refine (List.any_eq_true).mpr ⟨col, hcols, ?_⟩
  simp only [Bool.and_eq_true, beq_iff_eq]
  exact ⟨hname, by simpa using hdt⟩

/-- C8: for every table, the column choices offered per chart kind meet
that kind's type constraint before rendering: Scatter offers only
numeric columns for X and Y; Line offers all columns for X and only
numeric columns for Y; Histogram and Box offer only numeric columns;
Count offers all columns; Heatmap offers no selection. -/
theorem column_offerings_respect_chart_types (df : Table) :
    ((columnOptions df ChartType.scatter).all
      (fun opts => opts.all (fun c => hasNumericColumn df c))) = true
    ∧ (columnOptions df ChartType.line)[0]? = some (all_cols df)
    ∧ (((columnOptions df ChartType.line).drop 1).all
      (fun opts => opts.all (fun c => hasNumericColumn df c))) = true
    ∧ ((columnOptions df ChartType.histogram).all
      (fun opts => opts.all (fun c => hasNumericColumn df c))) = true
    ∧ ((columnOptions df ChartType.box).all
      (fun opts => opts.all (fun c => hasNumericColumn df c))) = true
    ∧ columnOptions df ChartType.countPlot = [all_cols df]
    ∧ columnOptions df ChartType.heatmap = [] := by
  have hnc : (numeric_cols df).all (fun c => hasNumericColumn df c) = true :=
    List.all_eq_true.mpr (fun c hc => hasNumericColumn_of_mem_numeric_cols hc)
  refine ⟨?_, rfl, ?_, ?_, ?_, rfl, rfl⟩ <;>
    simp [columnOptions, hnc]

/-- The data a rendered chart draws: either the selected column series,
or the annotated correlation grid of the heatmap. -/
inductive ChartOut where
  | plotted (series : List (String × List Cell))
  | heatGrid (names : List String) (grid : List (List ℚ))
deriving DecidableEq

/-- Look up a column by name (first match, as pandas indexing does). -/
def getCol (df : Table) (name : String) : Option Column :=
  df.cols.find? (fun c => c.name == name)

/-- The cells of the named column (empty when absent). -/
def colCells (df : Table) (name : String) : List Cell :=
  match getCol df name with
  | some c => c.cells
  | none => []

/-- The chart engine (src/main.py lines 140-164).  Each kind reads the
selected column(s) of the table.  The Correlation Heatmap branch is
`sns.heatmap(df.corr(), ...)`: `m` stands for the pairwise Pearson
matrix over the numeric columns (`df.corr()` restricted to its numeric
columns; under pandas >= 2.0 the very same call already raises on a
table with non-numeric columns, since `numeric_only` defaults to
`False`).  On a table with no numeric columns the correlation matrix is
empty and `sns.heatmap` raises `ValueError` from a zero-size reduction
while computing its color limits. -/
def renderChart (df : Table) (ct : ChartType) (x y : String)
    (m : String → String → ℚ) : Except String ChartOut :=
  match ct with
  | ChartType.scatter => Except.ok (ChartOut.plotted [(x, colCells df x), (y, colCells df y)])
  | ChartType.line => Except.ok (ChartOut.plotted [(x, colCells df x), (y, colCells df y)])
  | ChartType.histogram => Except.ok (ChartOut.plotted [(x, colCells df x)])
  | ChartType.box => Except.ok (ChartOut.plotted [(x, colCells df x)])
  | ChartType.countPlot => Except.ok (ChartOut.plotted [(x, colCells df x)])
  | ChartType.heatmap =>
      let nc := numeric_cols df
      if nc.isEmpty then
        Except.error "zero-size array to reduction operation fmin which has no identity"
      else
        Except.ok (ChartOut.heatGrid nc (nc.map (fun c => nc.map (fun r => m r c))))

/-- A table with a single text column and no numeric columns. -/
def textOnlyTable : Table :=
  ⟨[⟨"name", Dtype.obj, [some (Val.str "ada"), some (Val.str "grace")]⟩]⟩

/-- C6: on a table with zero numeric columns the Correlation Heatmap
path does not degrade to an empty chart — the heatmap render of the
empty correlation matrix raises an error, contradicting the claim's
non-crashing requirement. -/
theorem heatmap_errors_without_numeric_columns :
    numeric_cols textOnlyTable = []
    ∧ renderChart textOnlyTable ChartType.heatmap "" "" (fun _ _ => 0) =
        Except.error "zero-size array to reduction operation fmin which has no identity" := by
  exact ⟨rfl, rfl⟩

/-- One flattened entry of the unstacked correlation series: an ordered
column pair (level-0 label = matrix column, level-1 label = matrix row)
together with the absolute correlation value. -/
abbrev Entry := (String × String) × ℚ

/-- Elementwise absolute value, as `Series.abs()` applies it (spelled
out so that it evaluates on concrete inputs; `ratAbs_eq_abs` identifies
it with the mathematical absolute value). -/
def ratAbs (q : ℚ) : ℚ := if q < 0 then -q else q

/-- `ratAbs` is the absolute value. -/
theorem ratAbs_eq_abs (q : ℚ) : ratAbs q = |q| := by
  unfold ratAbs
  rcases lt_or_le q 0 with h | h
  · rw [if_pos h, abs_of_neg h]
  · rw [if_neg (not_lt.mpr h), abs_of_nonneg h]

/-- `corr_matrix.abs().unstack()` (src/main.py line 183): the matrix
over `names`, flattened column-major into (pair, |value|) entries, as
`DataFrame.unstack` does.  `m r c` is the matrix entry at row `r`,
column `c`. -/
def absUnstack (names : List String) (m : String → String → ℚ) : List Entry :=
  names.flatMap (fun c => names.map (fun r => ((c, r), ratAbs (m r c))))

/-- `.sort_values(ascending=False)` (src/main.py line 183): sort the
entries by value, descending.  pandas leaves the relative order of
equal values unspecified (quicksort); the model fixes a stable sort,
and no theorem below depends on the tie order. -/
def sortValuesDesc (l : List Entry) : List Entry :=
  l.insertionSort (fun a b => b.2 ≤ a.2)

/-- Recursion core of `drop_duplicates`: keep an entry iff its *value*
has not been seen earlier in the series. -/
def dropDupAux (seen : List ℚ) : List Entry → List Entry
  | [] => []
  | e :: rest =>
      if e.2 ∈ seen then dropDupAux seen rest
      else e :: dropDupAux (e.2 :: seen) rest

/-- `.drop_duplicates()` (src/main.py line 184): pandas deduplicates a
Series on its values (keep='first'); the index labels — the column
pairs — play no part in the comparison. -/
def dropDuplicates (l : List Entry) : List Entry := dropDupAux [] l

/-- `top_corr` (src/main.py lines 182-185): the insight report — the
flattened absolute correlation entries, sorted descending, value-wise
deduplicated, truncated to the first 5. -/
def top_corr (names : List String) (m : String → String → ℚ) : List Entry :=
  (dropDuplicates (sortValuesDesc (absUnstack names m))).take 5

/-- The quick-insights block (src/main.py lines 180-187): guarded by
`len(numeric_cols) >= 2`; below the threshold no correlation matrix is
built and no report is produced (an empty-result state, not an
error). -/
def quickInsights (df : Table) (m : String → String → ℚ) : Option (List Entry) :=
  if 2 ≤ (numeric_cols df).length then some (top_corr (numeric_cols df) m) else none

/-- Whether two ordered pairs name the same unordered column pair. -/
def sameUnordered (p q : String × String) : Bool :=
  (p.1 == q.1 && p.2 == q.2) || (p.1 == q.2 && p.2 == q.1)

/-- Mean of a list of rationals. -/
def listMean (l : List ℚ) : ℚ := l.sum / l.length

/-- Sum of products of deviations from the mean: the covariance
numerator of Pearson correlation (`corr(x, y) = covSum x y /
sqrt(covSum x x * covSum y y)`), used to certify concrete correlation
matrices exactly, without square roots. -/
def covSum (xs ys : List ℚ) : ℚ :=
  (List.zipWith (fun p q => (p - listMean xs) * (q - listMean ys)) xs ys).sum

/-- The descending sort really is sorted (weakly descending values). -/
theorem sortValuesDesc_sorted (l : List Entry) :
    (sortValuesDesc l).Pairwise (fun a b => b.2 ≤ a.2) := by
  haveI : IsTotal Entry (fun a b => b.2 ≤ a.2) := ⟨fun a b => le_total b.2 a.2⟩
  haveI : IsTrans Entry (fun a b => b.2 ≤ a.2) := ⟨fun _ _ _ h h' => le_trans h' h⟩
  exact List.sorted_insertionSort _ l

/-- The descending sort permutes its input. -/
theorem sortValuesDesc_perm (l : List Entry) : (sortValuesDesc l).Perm l :=
  List.perm_insertionSort _ l

/-- Deduplication yields a sublist of its input. -/
theorem dropDupAux_sublist (seen : List ℚ) (l : List Entry) :
    (dropDupAux seen l).Sublist l := by
  induction l generalizing seen with
  | nil => exact List.Sublist.refl _
  | cons e rest ih =>
      by_cases h : e.2 ∈ seen
      · simpa [dropDupAux, h] using (ih seen).cons e
      · simpa [dropDupAux, h] using (ih (e.2 :: seen)).cons₂ e

/-- No surviving entry carries a value already recorded as seen. -/
theorem mem_dropDupAux_not_seen {x : Entry} :
    ∀ {l : List Entry} {seen : List ℚ}, x ∈ dropDupAux seen l → x.2 ∉ seen := by
  intro l
  induction l with
  | nil => intro seen h; simp [dropDupAux] at h
  | cons e rest ih =>
      intro seen h
      by_cases hs : e.2 ∈ seen
      · exact ih (by simpa [dropDupAux, hs] using h)
      · rw [dropDupAux, if_neg hs] at h
        rcases List.mem_cons.mp h with rfl | hmem
        · exact hs
        · have := ih hmem
          exact fun hx => this (List.mem_cons_of_mem _ hx)

/-- The values surviving deduplication are pairwise distinct. -/
theorem dropDupAux_pairwise (seen : List ℚ) (l : List Entry) :
    (dropDupAux seen l).Pairwise (fun a b => a.2 ≠ b.2) := by
  induction l generalizing seen with
  | nil => simp [dropDupAux]
  | cons e rest ih =>
      by_cases h : e.2 ∈ seen
      · simpa [dropDupAux, h] using ih seen
      · rw [dropDupAux, if_neg h]
        refine List.Pairwise.cons (fun b hb => ?_) (ih (e.2 :: seen))
        have := mem_dropDupAux_not_seen hb
        exact fun he => this (by simp [← he])

/-- Every report entry originates in the flattened matrix. -/
theorem mem_absUnstack_of_mem_top_corr {names : List String}
    {m : String → String → ℚ} {x : Entry} (h : x ∈ top_corr names m) :
    x ∈ absUnstack names m := by
  have h1 : x ∈ dropDuplicates (sortValuesDesc (absUnstack names m)) :=
    List.take_subset _ _ h
  have h2 : x ∈ sortValuesDesc (absUnstack names m) :=
    (dropDupAux_sublist _ _).subset h1
  exact (sortValuesDesc_perm _).mem_iff.mp h2

/-- Shape of a flattened-matrix entry: both labels come from `names`
and the value is the absolute matrix entry at (row = second label,
column = first label). -/
theorem absUnstack_spec {names : List String} {m : String → String → ℚ}
    {x : Entry} (h : x ∈ absUnstack names m) :
    x.1.1 ∈ names ∧ x.1.2 ∈ names ∧ x.2 = ratAbs (m x.1.2 x.1.1) := by
  rcases List.mem_flatMap.mp h with ⟨c, hc, hx⟩
  rcases List.mem_map.mp hx with ⟨r, hr, rfl⟩
  exact ⟨hc, hr, rfl⟩

/-- The report is sorted weakly descending by value. -/
theorem top_corr_sorted (names : List String) (m : String → String → ℚ) :
    (top_corr names m).Pairwise (fun a b => b.2 ≤ a.2) := by
  have hs := sortValuesDesc_sorted (absUnstack names m)
  have h1 := List.Pairwise.sublist
    (dropDupAux_sublist [] (sortValuesDesc (absUnstack names m))) hs
  exact List.Pairwise.sublist (List.take_sublist 5 _) h1

/-- The report holds at most 5 entries. -/
theorem top_corr_length_le (names : List String) (m : String → String → ℚ) :
    (top_corr names m).length ≤ 5 := by
  unfold top_corr
  rw [List.length_take]
  exact Nat.min_le_left 5 _

/-- The values of the report are pairwise distinct. -/
theorem top_corr_values_pairwise (names : List String) (m : String → String → ℚ) :
    (top_corr names m).Pairwise (fun a b => a.2 ≠ b.2) :=
  List.Pairwise.sublist (List.take_sublist 5 _) (dropDupAux_pairwise [] _)

/-- In a list of pairwise-distinct values, a predicate that forces one
fixed value holds at most once. -/
theorem countP_le_one_of_same_value {P : Entry → Bool} {v : ℚ} :
    ∀ {l : List Entry}, l.Pairwise (fun a b => a.2 ≠ b.2) →
      (∀ e ∈ l, P e = true → e.2 = v) → l.countP P ≤ 1 := by
  intro l
  induction l with
  | nil => intro _ _; simp
  | cons e rest ih =>
      intro hpw hv
      rcases List.pairwise_cons.mp hpw with ⟨hhead, htail⟩
      rw [List.countP_cons]
      by_cases hP : P e = true
      · have hrest : rest.countP P = 0 := by
          refine List.countP_eq_zero.mpr (fun x hx hPx => ?_)
          have hxv : x.2 = v := hv x (List.mem_cons_of_mem _ hx) hPx
          have hev : e.2 = v := hv e (List.mem_cons_self e rest) hP
          exact hhead x hx (hev.trans hxv.symm)
        simp [hP, hrest]
      · have : rest.countP P ≤ 1 :=
          ih htail (fun x hx hPx => hv x (List.mem_cons_of_mem _ hx) hPx)
        simp [hP]
        omega

/-- C2: with fewer than 2 numeric columns the insight engine silently
produces no report — the guard fails, no correlation matrix is built,
and the result is the empty state `none`, not an error. -/
theorem quickInsights_none_of_lt_two (df : Table) (m : String → String → ℚ)
    (h : (numeric_cols df).length < 2) : quickInsights df m = none := by
  unfold quickInsights
  exact if_neg (by omega)

/-- C2 witness: the single-text-column table produces no insight
report. -/
theorem quickInsights_none_of_lt_two_witness :
    quickInsights textOnlyTable (fun _ _ => 0) = none :=
  quickInsights_none_of_lt_two textOnlyTable (fun _ _ => 0) (by decide)

/-- The correlation matrix of the two-column counterexample table:
columns "A" and "B" correlate at exactly 1/2, diagonal 1
(see `covSum_certifies_cexM`). -/
def cexM : String → String → ℚ := fun a b => if a = b then 1 else mkRat 1 2

/-- The counterexample table: numeric columns A = [1, 2, 3] and
B = [1, 3, 2]. -/
def cexTable : Table :=
  ⟨[⟨"A", Dtype.num, [some (Val.num 1), some (Val.num 2), some (Val.num 3)]⟩,
    ⟨"B", Dtype.num, [some (Val.num 1), some (Val.num 3), some (Val.num 2)]⟩]⟩

/-- Certification that `cexM` is exactly the Pearson matrix of
`cexTable`: with x = [1,2,3] and y = [1,3,2], the covariance numerator
is positive and its square equals (1/2)² times the product of the
variance numerators, so corr(x, y) = covSum / sqrt(varx · vary) = 1/2
exactly. -/
theorem covSum_certifies_cexM :
    cexM "A" "B" = 1/2
    ∧ covSum [1, 2, 3] [1, 3, 2] * covSum [1, 2, 3] [1, 3, 2] =
      (1/2 * (1/2 : ℚ)) *
        (covSum [1, 2, 3] [1, 2, 3] * covSum [1, 3, 2] [1, 3, 2])
    ∧ 0 < covSum [1, 2, 3] [1, 3, 2] := by
  refine ⟨?_, ?_, ?_⟩
  · show (if ("A" : String) = "B" then (1 : ℚ) else mkRat 1 2) = 1/2
    rw [if_neg (by decide)]
    norm_num [Rat.mkRat_eq_divInt, Rat.divInt_eq_div]
  · norm_num [covSum, listMean]
  · norm_num [covSum, listMean]

/-- C1 counterexample: on the table with numeric columns A, B with
|corr| = 1/2, the produced report is [(("A","A"), 1), (("A","B"), 1/2)]
— it contains a self-pair.  The claim "the report contains no
self-pairs" is false: value-wise `drop_duplicates` removes all but the
first of the 1.0-valued diagonal entries instead of removing them all,
and that surviving first entry is a self-pair under every tie order of
the sort, since every 1.0-valued entry here is a self-pair. -/
theorem top_corr_contains_self_pair :
    quickInsights cexTable cexM = some [(("A", "A"), 1), (("A", "B"), mkRat 1 2)]
    ∧ (top_corr ["A", "B"] cexM).countP (fun e => e.1.1 == e.1.2) = 1 := by
  exact ⟨by decide, by decide⟩

/-- C1 (amended): for every correlation matrix (symmetric, unit
diagonal — the Pearson properties), the insight report contains no
duplicate unordered pairs, is sorted descending by absolute
correlation, has at most 5 entries, and contains at most ONE self-pair
(rather than none, which the counterexample refutes). -/
theorem top_corr_report_shape (names : List String) (m : String → String → ℚ)
    (hsym : (names.all (fun x => names.all (fun y => decide (m x y = m y x)))) = true)
    (hdiag : (names.all (fun x => decide (m x x = 1))) = true) :
    (top_corr names m).Pairwise (fun a b => b.2 ≤ a.2)
    ∧ (top_corr names m).length ≤ 5
    ∧ (top_corr names m).Pairwise (fun a b => sameUnordered a.1 b.1 = false)
    ∧ (top_corr names m).countP (fun e => e.1.1 == e.1.2) ≤ 1 := by
  have hsym' : ∀ x ∈ names, ∀ y ∈ names, m x y = m y x := by
    intro x hx y hy
    have := List.all_eq_true.mp hsym x hx
    have := List.all_eq_true.mp this y hy
    exact of_decide_eq_true this
  have hdiag' : ∀ x ∈ names, m x x = 1 := by
    intro x hx
    exact of_decide_eq_true (List.all_eq_true.mp hdiag x hx)
  refine ⟨top_corr_sorted names m, top_corr_length_le names m, ?_, ?_⟩
  · refine List.Pairwise.imp_of_mem ?_ (top_corr_values_pairwise names m)
    intro a b ha hb hne
    rcases absUnstack_spec (mem_absUnstack_of_mem_top_corr ha) with ⟨ha1, ha2, hav⟩
    rcases absUnstack_spec (mem_absUnstack_of_mem_top_corr hb) with ⟨hb1, hb2, hbv⟩
    by_contra hsame
    have hsame' : sameUnordered a.1 b.1 = true := by
      revert hsame
      cases sameUnordered a.1 b.1 <;> simp
    have hsame2 : (a.1.1 = b.1.1 ∧ a.1.2 = b.1.2) ∨ (a.1.1 = b.1.2 ∧ a.1.2 = b.1.1) := by
      simpa [sameUnordered, Bool.and_eq_true] using hsame'
    rcases hsame2 with ⟨h1', h2'⟩ | ⟨h1', h2'⟩
    · exact hne (by rw [hav, hbv, h1', h2'])
    · refine hne ?_
      rw [hav, hbv, h1', h2', hsym' b.1.1 hb1 b.1.2 hb2]
  · refine countP_le_one_of_same_value (v := 1) (top_corr_values_pairwise names m) ?_
    intro e he hself
    rcases absUnstack_spec (mem_absUnstack_of_mem_top_corr he) with ⟨h1, _, hv⟩
    have hself' : e.1.1 = e.1.2 := by simpa using hself
    rw [hv, ← hself', hdiag' e.1.1 h1]
    decide

/-- C1 witness: the amended report shape at the concrete two-column
matrix. -/
theorem top_corr_report_shape_witness :
    (top_corr ["A", "B"] cexM).Pairwise (fun a b => b.2 ≤ a.2)
    ∧ (top_corr ["A", "B"] cexM).length ≤ 5
    ∧ (top_corr ["A", "B"] cexM).Pairwise (fun a b => sameUnordered a.1 b.1 = false)
    ∧ (top_corr ["A", "B"] cexM).countP (fun e => e.1.1 == e.1.2) ≤ 1 :=
  top_corr_report_shape ["A", "B"] cexM (by decide) (by decide)

/-- Unpacking of the boolean symmetry check on a matrix. -/
theorem symmCheck_spec {names : List String} {m : String → String → ℚ}
    (h : (names.all (fun x => names.all (fun y => decide (m x y = m y x)))) = true) :
    ∀ x ∈ names, ∀ y ∈ names, m x y = m y x := by
  intro x hx y hy
  have h1 := List.all_eq_true.mp h x hx
  exact of_decide_eq_true (List.all_eq_true.mp h1 y hy)

/-- A report entry labelled (in either order) by the unordered pair
{x, y} carries the value |m x y|. -/
theorem value_of_sameUnordered {names : List String} {m : String → String → ℚ}
    {e : Entry} {x y : String}
    (hsym' : ∀ u ∈ names, ∀ v ∈ names, m u v = m v u)
    (he : e ∈ top_corr names m) (hu : sameUnordered e.1 (x, y) = true) :
    e.2 = ratAbs (m x y) := by
  rcases absUnstack_spec (mem_absUnstack_of_mem_top_corr he) with ⟨h1, h2, hv⟩
  have hcase : (e.1.1 = x ∧ e.1.2 = y) ∨ (e.1.1 = y ∧ e.1.2 = x) := by
    simpa [sameUnordered, Bool.and_eq_true] using hu
  rcases hcase with ⟨hx, hy⟩ | ⟨hx, hy⟩
  · have hxn : x ∈ names := hx ▸ h1
    have hyn : y ∈ names := hy ▸ h2
    rw [hv, hx, hy, hsym' y hyn x hxn]
  · rw [hv, hx, hy]

/-- Two ordered pairs naming the same unordered pair as a common third
pair name the same unordered pair as each other. -/
theorem sameUnordered_compat {p : String × String} {a b c d : String}
    (h1 : sameUnordered p (a, b) = true) (h2 : sameUnordered p (c, d) = true) :
    sameUnordered (a, b) (c, d) = true := by
  have h1' : (p.1 = a ∧ p.2 = b) ∨ (p.1 = b ∧ p.2 = a) := by
    simpa [sameUnordered, Bool.and_eq_true] using h1
  have h2' : (p.1 = c ∧ p.2 = d) ∨ (p.1 = d ∧ p.2 = c) := by
    simpa [sameUnordered, Bool.and_eq_true] using h2
  simp only [sameUnordered, Bool.or_eq_true, Bool.and_eq_true, beq_iff_eq]
  rcases h1' with ⟨hx, hy⟩ | ⟨hx, hy⟩ <;> rcases h2' with ⟨hu, hv⟩ | ⟨hu, hv⟩ <;>
    subst_vars <;> simp

/-- C10: when two distinct unordered pairs of columns have exactly
equal absolute correlation, at most one of the two appears in the
insight report: `drop_duplicates` compares the series values, so
equal-valued entries collapse to one survivor regardless of which
column pairs produced them. -/
theorem equal_abs_values_collapse (names : List String) (m : String → String → ℚ)
    (hsym : (names.all (fun x => names.all (fun y => decide (m x y = m y x)))) = true)
    (a b c d : String)
    (hne : sameUnordered (a, b) (c, d) = false)
    (heq : ratAbs (m a b) = ratAbs (m c d)) :
    (top_corr names m).countP (fun e => sameUnordered e.1 (a, b)) = 0
    ∨ (top_corr names m).countP (fun e => sameUnordered e.1 (c, d)) = 0 := by
  have hsym' := symmCheck_spec hsym
  by_contra hcon
  rcases not_or.mp hcon with ⟨hA, hB⟩
  rcases List.countP_pos_iff.mp (Nat.pos_of_ne_zero hA) with ⟨e1, he1, hp1⟩
  rcases List.countP_pos_iff.mp (Nat.pos_of_ne_zero hB) with ⟨e2, he2, hp2⟩
  have hv1 : e1.2 = ratAbs (m a b) := value_of_sameUnordered hsym' he1 hp1
  have hv2 : e2.2 = ratAbs (m c d) := value_of_sameUnordered hsym' he2 hp2
  have hne12 : e1 ≠ e2 := by
    intro hcontra
    subst hcontra
    rw [sameUnordered_compat hp1 hp2] at hne
    cases hne
  have hsymm : Symmetric (fun u v : Entry => u.2 ≠ v.2) := fun _ _ h => Ne.symm h
  have := (top_corr_values_pairwise names m).forall hsymm he1 he2 hne12
  exact this (by rw [hv1, hv2, heq])

/-- The three-column correlation matrix of the C10 witness:
|corr(A,B)| = |corr(A,C)| = 1/2 and |corr(B,C)| = 1/4. -/
def cexM3 : String → String → ℚ := fun a b =>
  if a = b then 1
  else if (a = "B" ∧ b = "C") ∨ (a = "C" ∧ b = "B") then mkRat 1 4
  else mkRat 1 2

/-- C10 witness: with unordered pairs {A,B} and {A,C} tied at absolute
correlation 1/2, at most one of the two appears in the report. -/
theorem equal_abs_values_collapse_witness :
    (top_corr ["A", "B", "C"] cexM3).countP (fun e => sameUnordered e.1 ("A", "B")) = 0
    ∨ (top_corr ["A", "B", "C"] cexM3).countP (fun e => sameUnordered e.1 ("A", "C")) = 0 :=
  equal_abs_values_collapse ["A", "B", "C"] cexM3 (by decide) "A" "B" "A" "C"
    (by decide) (by decide)

/-- C3 counterexample: on the concrete table with exactly 2 numeric
columns the insight report holds 2 ranked entries (the surviving
self-pair at value 1 and the cross pair), not at most 1. -/
theorem two_numeric_report_has_two_entries :
    Option.map List.length (quickInsights cexTable cexM) = some 2 := by
  decide

/-- C3 (amended): for every table with exactly 2 numeric columns (with
the Pearson symmetry / unit-diagonal facts for them), the insight
report holds at most 2 entries, at most one of which pairs two distinct
columns; the other possible entry is the surviving self-pair. -/
theorem two_numeric_cols_report_bound (df : Table) (m : String → String → ℚ)
    (a b : String) (hcols : numeric_cols df = [a, b])
    (hsym : m a b = m b a) (hda : m a a = 1) (hdb : m b b = 1) :
    ((quickInsights df m).getD []).length ≤ 2
    ∧ ((quickInsights df m).getD []).countP (fun e => !(e.1.1 == e.1.2)) ≤ 1 := by
  have hq : quickInsights df m = some (top_corr [a, b] m) := by
    unfold quickInsights
    rw [hcols]
    rfl
  rw [hq, Option.getD_some]
  have hval : ∀ e ∈ top_corr [a, b] m, e.2 = 1 ∨ e.2 = ratAbs (m a b) := by
    intro e he
    rcases absUnstack_spec (mem_absUnstack_of_mem_top_corr he) with ⟨h1, h2, hv⟩
    rcases List.mem_pair.mp h1 with hc | hc <;> rcases List.mem_pair.mp h2 with hr | hr
    · left
      rw [hv, hc, hr, hda]
      decide
    · right
      rw [hv, hc, hr, hsym]
    · right
      rw [hv, hc, hr]
    · left
      rw [hv, hc, hr, hdb]
      decide
  constructor
  · have hnd : ((top_corr [a, b] m).map Prod.snd).Pairwise (fun u v => u ≠ v) :=
      List.Pairwise.map Prod.snd (fun _ _ h => h) (top_corr_values_pairwise [a, b] m)
    have hsub : (top_corr [a, b] m).map Prod.snd ⊆ [1, ratAbs (m a b)] := by
      intro v hvmem
      rcases List.mem_map.mp hvmem with ⟨e, he, rfl⟩
      rcases hval e he with h | h <;> simp [h]
    have hlen := (List.subperm_of_subset hnd hsub).length_le
    simpa [List.length_map] using hlen
  · refine countP_le_one_of_same_value (v := ratAbs (m a b))
      (top_corr_values_pairwise [a, b] m) ?_
    intro e he hcross
    rcases absUnstack_spec (mem_absUnstack_of_mem_top_corr he) with ⟨h1, h2, hv⟩
    have hne : e.1.1 ≠ e.1.2 := by simpa using hcross
    rcases List.mem_pair.mp h1 with hc | hc <;> rcases List.mem_pair.mp h2 with hr | hr
    · exact absurd (hc.trans hr.symm) hne
    · rw [hv, hc, hr, hsym]
    · rw [hv, hc, hr]
    · exact absurd (hc.trans hr.symm) hne

/-- C3 witness: the bound applied to the concrete two-numeric-column
table. -/
theorem two_numeric_cols_report_bound_witness :
    ((quickInsights cexTable cexM).getD []).length ≤ 2
    ∧ ((quickInsights cexTable cexM).getD []).countP (fun e => !(e.1.1 == e.1.2)) ≤ 1 :=
  two_numeric_cols_report_bound cexTable cexM "A" "B" (by decide) (by decide)
    (by decide) (by decide)

/-- Everything the page renders for one interaction cycle
(src/main.py lines 104-187): preview, overview metrics, the two
expander panels, the chart, its PNG export, and the quick insights. -/
structure AppRender where
  preview : Table
  rowsShown : Nat
  colsShown : Nat
  missingShown : Nat
  typesPanel : List (String × Dtype)
  missingPanel : List (String × Nat)
  statsPanel : Except String (List (String × NumSummary))
  chart : Except String ChartOut
  png : Except String ChartOut
  insights : Option (List Entry)

/-- Data preview (line 109): `st.dataframe(df.head())`.  The pair's
second component is the table state the step leaves behind:
`DataFrame.head` builds a fresh frame and never mutates its receiver. -/
def previewStep (df : Table) : Table × Table := (dfHead df, df)

/-- Overview metrics (lines 114-116): shape and total missing count,
all pure reads. -/
def overviewStep (df : Table) : (Nat × Nat × Nat) × Table :=
  ((rowCount df, columnCount df, missingCount df), df)

/-- The dtypes / per-column-missing expander (lines 118-121); `dtypes`
and `isnull().sum()` allocate fresh objects. -/
def panelsStep (df : Table) : (List (String × Dtype) × List (String × Nat)) × Table :=
  ((dtypes df, perColumnMissing df), df)

/-- The descriptive-statistics expander (line 124); `describe()`
returns a new frame. -/
def statsStep (df : Table) : Except String (List (String × NumSummary)) × Table :=
  (describeTable df, df)

/-- The chart render (lines 137-166); the seaborn calls read the frame
and draw on the figure. -/
def chartStep (df : Table) (ct : ChartType) (x y : String)
    (m : String → String → ℚ) : Except String ChartOut × Table :=
  (renderChart df ct x y m, df)

/-- The PNG download (lines 169-176): `fig.savefig(buf)` serializes the
already-rendered figure; the table is not consulted at all. -/
def exportPngStep (df : Table) (fig : Except String ChartOut) :
    Except String ChartOut × Table :=
  (fig, df)

/-- The quick-insights block (lines 179-187). -/
def insightsStep (df : Table) (m : String → String → ℚ) :
    Option (List Entry) × Table :=
  (quickInsights df m, df)

/-- One full top-to-bottom page run over the loaded table (src/main.py
lines 104-187), threading the table state through every step in source
order. -/
def runApp (df : Table) (ct : ChartType) (x y : String)
    (m : String → String → ℚ) : AppRender × Table :=
  let s1 := previewStep df
  let s2 := overviewStep s1.2
  let s3 := panelsStep s2.2
  let s4 := statsStep s3.2
  let s5 := chartStep s4.2 ct x y m
  let s6 := exportPngStep s5.2 s5.1
  let s7 := insightsStep s6.2 m
  (⟨s1.1, s2.1.1, s2.1.2.1, s2.1.2.2, s3.1.1, s3.1.2, s4.1, s5.1, s6.1, s7.1⟩, s7.2)

/-- C9: the loaded table is immutable under every downstream operation:
a full page run — and each individual step: preview, overview, the two
panels, descriptive statistics, chart render, PNG export, insight
computation — returns the table exactly as it was at load time. -/
theorem table_unchanged_by_pipeline (df : Table) (ct : ChartType) (x y : String)
    (m : String → String → ℚ) (fig : Except String ChartOut) :
    (runApp df ct x y m).2 = df
    ∧ (previewStep df).2 = df
    ∧ (overviewStep df).2 = df
    ∧ (panelsStep df).2 = df
    ∧ (statsStep df).2 = df
    ∧ (chartStep df ct x y m).2 = df
    ∧ (exportPngStep df fig).2 = df
    ∧ (insightsStep df m).2 = df := by
  exact ⟨rfl, rfl, rfl, rfl, rfl, rfl, rfl, rfl⟩
